import Mathlib

/-!
# Verification of the telegram-uploader core

A shallow embedding of the signed-URL codec (`src/utils/signature.ts`),
the download routes (`src/routes/download.route.ts`) and the MTProto
upload/auth service, together with proofs of the specification claims.

Machine integers are modelled as `Nat` with explicit reduction modulo
`2^32` where the JavaScript code relies on 32-bit word semantics
(inside SHA-256 only); byte strings are `List Nat` with every byte
below 256.
-/

namespace Uploader

/-! ## Bytes and 32-bit words -/

/-- Node `Buffer` contents: a list of bytes (each `< 256` by construction). -/
abbrev Bytes := List Nat

/-- `2^32`, the word modulus of SHA-256 arithmetic. -/
def M32 : Nat := 4294967296

/-- Addition modulo `2^32`. -/
def add32 (a b : Nat) : Nat := (a + b) % M32

/-- Rotate a 32-bit word right by `n` bits. -/
def rotr32 (n x : Nat) : Nat := ((x >>> n) ||| (x <<< (32 - n))) % M32

/-- Bitwise complement on 32-bit words. -/
def not32 (x : Nat) : Nat := x ^^^ 4294967295

/-! ## SHA-256 (FIPS 180-4), executable over `Nat` -/

/-- SHA-256 `Ch` function. -/
def shaCh (x y z : Nat) : Nat := (x &&& y) ^^^ (not32 x &&& z)

/-- SHA-256 `Maj` function. -/
def shaMaj (x y z : Nat) : Nat := (x &&& y) ^^^ (x &&& z) ^^^ (y &&& z)

/-- SHA-256 `Σ₀`. -/
def bigS0 (x : Nat) : Nat := rotr32 2 x ^^^ rotr32 13 x ^^^ rotr32 22 x

/-- SHA-256 `Σ₁`. -/
def bigS1 (x : Nat) : Nat := rotr32 6 x ^^^ rotr32 11 x ^^^ rotr32 25 x

/-- SHA-256 `σ₀`. -/
def smallS0 (x : Nat) : Nat := rotr32 7 x ^^^ rotr32 18 x ^^^ (x >>> 3)

/-- SHA-256 `σ₁`. -/
def smallS1 (x : Nat) : Nat := rotr32 17 x ^^^ rotr32 19 x ^^^ (x >>> 10)

/-- The 64 SHA-256 round constants (FIPS 180-4, written in decimal). -/
def shaK : List Nat :=
  [1116352408, 1899447441, 3049323471, 3921009573, 961987163,
   1508970993, 2453635748, 2870763221, 3624381080, 310598401,
   607225278, 1426881987, 1925078388, 2162078206, 2614888103,
   3248222580, 3835390401, 4022224774, 264347078, 604807628,
   770255983, 1249150122, 1555081692, 1996064986, 2554220882,
   2821834349, 2952996808, 3210313671, 3336571891, 3584528711,
   113926993, 338241895, 666307205, 773529912, 1294757372,
   1396182291, 1695183700, 1986661051, 2177026350, 2456956037,
   2730485921, 2820302411, 3259730800, 3345764771, 3516065817,
   3600352804, 4094571909, 275423344, 430227734, 506948616,
   659060556, 883997877, 958139571, 1322822218, 1537002063,
   1747873779, 1955562222, 2024104815, 2227730452, 2361852424,
   2428436474, 2756734187, 3204031479, 3329325298]

/-- The SHA-256 initial hash value (FIPS 180-4, written in decimal). -/
def shaH0 : List Nat :=
  [1779033703, 3144134277, 1013904242, 2773480762,
   1359893119, 2600822924, 528734635, 1541459225]

/-- A 32-bit word as four big-endian bytes. -/
def be32 (w : Nat) : Bytes :=
  [(w >>> 24) % 256, (w >>> 16) % 256, (w >>> 8) % 256, w % 256]

/-- A 64-bit value as eight big-endian bytes. -/
def be64 (n : Nat) : Bytes :=
  [(n >>> 56) % 256, (n >>> 48) % 256, (n >>> 40) % 256, (n >>> 32) % 256,
   (n >>> 24) % 256, (n >>> 16) % 256, (n >>> 8) % 256, n % 256]

/-- SHA-256 message padding: append `0x80`, zeros, and the 64-bit bit length. -/
def shaPad (msg : Bytes) : Bytes :=
  msg ++ 0x80 :: List.replicate ((64 - (msg.length + 9) % 64) % 64) 0
      ++ be64 (8 * msg.length)

/-- Split a byte list into 64-byte blocks (structural recursion on a fuel
bound so the kernel can evaluate it). -/
def chunksAux : Nat → Bytes → List Bytes
  | 0, _ => []
  | _, [] => []
  | fuel + 1, l => l.take 64 :: chunksAux fuel (l.drop 64)

/-- Split a byte list into 64-byte blocks. -/
def chunks64 (l : Bytes) : List Bytes := chunksAux l.length l

/-- Four big-endian bytes as one 32-bit word, reading the head of a block. -/
def wordsOf (block : Bytes) : List Nat :=
  match block with
  | b0 :: b1 :: b2 :: b3 :: rest =>
      (((b0 <<< 24) ||| (b1 <<< 16)) ||| ((b2 <<< 8) ||| b3)) :: wordsOf rest
  | _ => []

/-- One message-schedule extension step: append `W[t]` computed from the
last 16 entries. -/
def schedStep (w : List Nat) : List Nat :=
  w ++ [add32 (add32 (smallS1 (w.getD (w.length - 2) 0)) (w.getD (w.length - 7) 0))
          (add32 (smallS0 (w.getD (w.length - 15) 0)) (w.getD (w.length - 16) 0))]

/-- The full 64-entry message schedule of one block. -/
def schedule (block : Bytes) : List Nat := schedStep^[48] (wordsOf block)

/-- One SHA-256 compression round on the 8-word working state. -/
def shaRound (st : List Nat) (kw : Nat × Nat) : List Nat :=
  let a := st.getD 0 0
  let b := st.getD 1 0
  let c := st.getD 2 0
  let d := st.getD 3 0
  let e := st.getD 4 0
  let f := st.getD 5 0
  let g := st.getD 6 0
  let h := st.getD 7 0
  let t1 := add32 (add32 (add32 h (bigS1 e)) (add32 (shaCh e f g) kw.1)) kw.2
  let t2 := add32 (bigS0 a) (shaMaj a b c)
  [add32 t1 t2, a, b, c, add32 d t1, e, f, g]

/-- Compress one 64-byte block into the running hash. -/
def shaBlock (h : List Nat) (block : Bytes) : List Nat :=
  List.zipWith add32 h (List.foldl shaRound h (shaK.zip (schedule block)))

/-- SHA-256 of a byte string, as its 32 digest bytes. -/
def sha256 (msg : Bytes) : Bytes :=
  ((chunks64 (shaPad msg)).foldl shaBlock shaH0).flatMap be32

/-! ## HMAC-SHA256 (`crypto.createHmac("sha256", key)`) -/

/-- HMAC-SHA256 with byte-string key and message (RFC 2104, block size 64). -/
def hmacSha256 (key msg : Bytes) : Bytes :=
  let k0 := if 64 < key.length then sha256 key else key
  let k := k0 ++ List.replicate (64 - k0.length) 0
  sha256 (k.map (Nat.xor 0x5c) ++ sha256 (k.map (Nat.xor 0x36) ++ msg))

/-- The UTF-8 bytes of a string; all strings handled here are ASCII, for
which the code points are the bytes. -/
def strBytes (s : String) : Bytes := s.data.map Char.toNat

/-! ## Hex encoding and decoding (Node `digest("hex")` / `Buffer.from(s, "hex")`) -/

/-- The lowercase hex digit for a nibble, as `digest("hex")` emits it. -/
def hexDigitChar (n : Nat) : Char := "0123456789abcdef".data.getD n '*'

/-- The chars of the lowercase hex rendering of a byte string. -/
def hexChars (bs : Bytes) : List Char :=
  bs.flatMap (fun b => [hexDigitChar (b / 16), hexDigitChar (b % 16)])

/-- Lowercase hex rendering of a byte string (`digest("hex")`). -/
def hexEncode (bs : Bytes) : String := String.mk (hexChars bs)

/-- The nibble value of a hex digit char. Node hex parsing accepts both
cases, so `'A'`–`'F'` decode like `'a'`–`'f'`. -/
def hexVal (c : Char) : Option Nat :=
  if 48 ≤ c.toNat ∧ c.toNat ≤ 57 then some (c.toNat - 48)
  else if 97 ≤ c.toNat ∧ c.toNat ≤ 102 then some (c.toNat - 87)
  else if 65 ≤ c.toNat ∧ c.toNat ≤ 70 then some (c.toNat - 55)
  else none

/-- Node `Buffer.from(s, "hex")` semantics on the char list: decode hex
pairs from the front and stop at the first invalid digit (or at a dangling
final digit), keeping the bytes decoded so far. -/
def hexDecodeChars : List Char → Bytes
  | c1 :: c2 :: rest =>
    match hexVal c1, hexVal c2 with
    | some hi, some lo => (16 * hi + lo) :: hexDecodeChars rest
    | _, _ => []
  | _ => []

/-- `Buffer.from(s, "hex")`. -/
def bufFromHex (s : String) : Bytes := hexDecodeChars s.data

/-- Node `crypto.timingSafeEqual`: throws (`none`) when the buffer lengths
differ, otherwise reports byte-wise equality. -/
def timingSafeEqual (a b : Bytes) : Option Bool :=
  if a.length = b.length then some (decide (a = b)) else none

/-! ## The signed-URL codec (`src/utils/signature.ts`)

The signing secret (`config.security.urlSignatureSecret`) and the clock
(`Date.now()`) are ambient in the source; here they are explicit
parameters `secret` and `now`. -/

/-- `SIGNATURE_EXPIRY_MS = 15 * 60 * 1000`. -/
def SIGNATURE_EXPIRY_MS : Nat := 15 * 60 * 1000

/-- The default `config.security.urlSignatureSecret` from `src/config`. -/
def DEFAULT_SECRET : String := "change-me-in-production-this-is-unsafe"

/-- The conditional ip fragment of the template string: JavaScript
truthiness makes an absent or empty IP contribute nothing, otherwise the
fragment is "&ip=" followed by the address. -/
def ipSegment : Option String → String
  | none => ""
  | some ip => if ip = "" then "" else "&ip=" ++ ip

/-- The `stringToSign` template built identically in `generateSignedUrl`
and `validateSignedUrl`: `fileId=${fileId}&expires=${expires}[&ip=${ip}]`. -/
def stringToSign (fileId : String) (expires : Nat) (ipAddress : Option String) : String :=
  "fileId=" ++ fileId ++ "&expires=" ++ toString expires ++ ipSegment ipAddress

/-- The `{ expires, signature }` object returned by `generateSignedUrl`. -/
structure SignedUrl where
  expires : Nat
  signature : String
deriving Repr, DecidableEq

/-- `generateSignedUrl(fileId, ipAddress?)`: `expires = Date.now() +
SIGNATURE_EXPIRY_MS`, signature = hex HMAC-SHA256 of the string to sign. -/
def generateSignedUrl (secret fileId : String) (ipAddress : Option String)
    (now : Nat) : SignedUrl :=
  let expires := now + SIGNATURE_EXPIRY_MS
  { expires := expires
    signature :=
      hexEncode (hmacSha256 (strBytes secret)
        (strBytes (stringToSign fileId expires ipAddress))) }

/-- The try/catch around `crypto.timingSafeEqual` in `validateSignedUrl`:
the length-mismatch throw is caught and turned into false. -/
def compareDigests (a b : Bytes) : Bool :=
  match timingSafeEqual a b with
  | some isValid => isValid
  | none => false

/-- `validateSignedUrl(fileId, expires, signature, ipAddress?)`: false when
`Date.now() > expires`; otherwise recompute the expected signature and
compare the hex-decoded buffers with `timingSafeEqual`, treating the
length-mismatch throw as false. -/
def validateSignedUrl (secret fileId : String) (expires : Nat)
    (signature : String) (ipAddress : Option String) (now : Nat) : Bool :=
  if expires < now then false
  else
    compareDigests (bufFromHex signature)
      (bufFromHex (hexEncode (hmacSha256 (strBytes secret)
        (strBytes (stringToSign fileId expires ipAddress)))))

/-- The spec's canonical string, as the specification words it:
`subjectId|expiresAtEpochMs` with `|clientIp` appended when an IP is
bound. Stated only for the refinement comparison against `stringToSign`. -/
def specCanonicalString (subjectId : String) (expiresAtEpochMs : Nat)
    (clientIp : Option String) : String :=
  subjectId ++ "|" ++ toString expiresAtEpochMs ++
    (match clientIp with
     | some ipAddr => "|" ++ ipAddr
     | none => "")

/-! ## Download routes (`src/routes/download.route.ts`)

The Prisma database is a list of `uploadFile` records; the Telegram Bot
API (`getFile`) is a function from a telegram file id to the shape of the
response the route inspects. Responses are an inductive mirroring the
distinct `res.*` terminations of each handler. -/

/-- A row of the `uploadFile` table, with the columns the routes read. -/
structure FileRecord where
  id : String
  fileName : String
  fileType : String
  fileSize : Nat
  telegramFileId : String
  channelId : String
  publicUrl : String
deriving Repr, DecidableEq

/-- Outcome of the `getFile` backend call as the route inspects it:
`ok` when `response.data.ok` holds and a `file_path` is present, `okNoPath`
when the response resolves no file path, `err` when the call throws. -/
inductive BackendFileResult where
  | ok (filePath : String)
  | okNoPath
  | err (msg : String)
deriving Repr, DecidableEq

/-- The distinct response terminations of the download handlers. -/
inductive DlResponse where
  | badRequest (msg : String)
  | forbidden (msg : String)
  | notFound (msg : String)
  | serverError (msg : String)
  | inlineStream (fileUrl contentType fileName : String)
  | largeFileInstructions (fileName channelId telegramFileId fileId : String)
  | redirect (url : String)
deriving Repr, DecidableEq

/-- Whether the response is the structured manual-retrieval page (the
large-file instruction HTML naming channel, telegram file id and the
MTProto link). -/
def isManualRetrieval : DlResponse → Bool
  | .largeFileInstructions _ _ _ _ => true
  | _ => false

/-- Substring test on char lists, `needle` occurring inside the list. -/
def listHasInfix (needle : List Char) : List Char → Bool
  | [] => needle.isEmpty
  | c :: rest => needle.isPrefixOf (c :: rest) || listHasInfix needle rest

/-- JavaScript `hay.includes(needle)` / Prisma `contains`. -/
def strContains (hay needle : String) : Bool := listHasInfix needle.data hay.data

/-- `prisma.uploadFile.findUnique({ where: { id } })`. -/
def findUniqueById (db : List FileRecord) (id : String) : Option FileRecord :=
  db.find? (fun r => r.id == id)

/-- `prisma.uploadFile.findFirst({ where: { publicUrl: { contains: id } } })`. -/
def findFirstByPublicUrl (db : List FileRecord) (id : String) : Option FileRecord :=
  db.find? (fun r => strContains r.publicUrl id)

/-- The two-step lookup of `streamFile`: by primary key first, then by the
id occurring inside the stored `publicUrl`. -/
def lookupFile (db : List FileRecord) (id : String) : Option FileRecord :=
  match findUniqueById db id with
  | some f => some f
  | none => findFirstByPublicUrl db id

/-- `MAX_BOT_DOWNLOAD_SIZE = 20 * 1024 * 1024`. -/
def MAX_BOT_DOWNLOAD_SIZE : Nat := 20 * 1024 * 1024

/-- The Telegram CDN URL built from the bot token and the file path. -/
def fileUrl (botToken filePath : String) : String :=
  "https://api.telegram.org/file/bot" ++ botToken ++ "/" ++ filePath

/-- `streamFile` (also the target of the plain `GET /download/:id` entry
point, whose handler delegates to it): look the record up, then branch on
the 20 MiB bot-API limit; large files get the instruction page with no
backend call, small files are streamed from the resolved CDN URL. -/
def streamFile (db : List FileRecord) (botToken : String)
    (backend : String → BackendFileResult) (id : String) : DlResponse :=
  if id = "" then .badRequest "File ID is required"
  else
    match lookupFile db id with
    | none => .notFound "File not found"
    | some file =>
      if MAX_BOT_DOWNLOAD_SIZE < file.fileSize then
        if botToken = "" then .serverError "Bot token not available"
        else .largeFileInstructions file.fileName file.channelId
          file.telegramFileId file.id
      else
        if botToken = "" then .serverError "Bot token not available"
        else
          match backend file.telegramFileId with
          | .ok filePath =>
            .inlineStream (fileUrl botToken filePath) file.fileType file.fileName
          | .okNoPath => .notFound "File not found on Telegram servers"
          | .err _ => .serverError "Error retrieving file from Telegram"

/-- The direct-handle fast path test of `handleRedirect`. -/
def isDirectTelegramId (fileId : String) : Bool :=
  fileId.startsWith "BQA" || fileId.startsWith "AAD" || fileId.startsWith "CQA"

/-- JavaScript `parseInt(s, 10)` restricted to the digit strings the route
receives: the leading decimal digits, `none` (NaN) when there are none. -/
def parseInt10 (s : String) : Option Nat :=
  let ds := s.data.takeWhile Char.isDigit
  if ds.isEmpty then none
  else some (ds.foldl (fun acc c => 10 * acc + (c.toNat - 48)) 0)

/-- JavaScript truthiness of an optional query parameter: absent and empty
strings are falsy. -/
def truthyQ : Option String → Bool
  | none => false
  | some s => if s = "" then false else true

/-- The result of `handleRedirect` together with which collaborators the
handler touched: whether the `uploadFile` table was queried and whether
any Telegram backend call was issued. -/
structure RedirectOutcome where
  response : DlResponse
  dbQueried : Bool
  backendCalled : Bool
deriving Repr, DecidableEq

/-- `handleRedirect` (`GET /download/redirect/:fileId`): the direct
Telegram-handle prefixes bypass the signature; otherwise the query
parameters are checked and parsed, `validateSignedUrl` decides 403, and
only then the record is loaded and the backend resolved. `clientIp` is the
value the route passes to validation (production: `req.ip || ""`,
development: absent). -/
def handleRedirect (secret : String) (db : List FileRecord) (botToken : String)
    (backend : String → BackendFileResult) (fileId : String)
    (expiresQ signatureQ : Option String) (clientIp : Option String)
    (now : Nat) : RedirectOutcome :=
  if fileId = "" then ⟨.badRequest "Missing file ID", false, false⟩
  else if isDirectTelegramId fileId then
    if botToken = "" then ⟨.serverError "Bot token not available", false, false⟩
    else
      match backend fileId with
      | .ok filePath => ⟨.redirect (fileUrl botToken filePath), false, true⟩
      | .okNoPath =>
        ⟨.notFound "Telegram file not found or not accessible", false, true⟩
      | .err _ => ⟨.serverError "Error retrieving file from Telegram", false, true⟩
  else if !truthyQ expiresQ || !truthyQ signatureQ then
    ⟨.badRequest "Missing required parameters", false, false⟩
  else
    match parseInt10 (expiresQ.getD "") with
    | none => ⟨.badRequest "Invalid expires parameter", false, false⟩
    | some expiresNum =>
      if !validateSignedUrl secret fileId expiresNum (signatureQ.getD "")
          clientIp now then
        ⟨.forbidden "Invalid or expired signature", false, false⟩
      else
        match findUniqueById db fileId with
        | none => ⟨.notFound "File not found", true, false⟩
        | some file =>
          if botToken = "" then ⟨.serverError "Bot token not available", true, false⟩
          else
            match backend file.telegramFileId with
            | .ok filePath => ⟨.redirect (fileUrl botToken filePath), true, true⟩
            | .okNoPath => ⟨.redirect ("/download/" ++ fileId ++ "/stream"), true, true⟩
            | .err _ => ⟨.serverError "Error retrieving file", true, true⟩

/-! ## Chunked upload (`TelegramMTProtoService.uploadLargeFile`)

The file buffer is a byte list; `upload.saveFilePart` is an oracle
`partOk` saying whether the call for a given part index succeeds; the
`messages.sendMedia` commit is summarised by the document id the update
scan extracts (`none` when no document can be extracted). The random
`uuidv4()` file id and the service public URL are explicit parameters. -/

/-- `partSize = 512 * 1024` (512 KiB parts). -/
def partSize : Nat := 512 * 1024

/-- `totalParts = Math.ceil(fileSize / partSize)`. -/
def totalPartsOf (fileSize : Nat) : Nat := (fileSize + partSize - 1) / partSize

/-- `Buffer.slice(start, stop)`. -/
def slice (buf : Bytes) (start stop : Nat) : Bytes :=
  (buf.drop start).take (stop - start)

/-- The `for (let i = 0; ...)` part-upload loop, returning the
`saveFilePart` calls attempted in order and the index of the first failing
part, if any; the loop stops at the first failure (the failing call is the
last one attempted). Structural recursion on the number of remaining
parts, starting at index `i`. -/
def runParts (buffer : Bytes) (fileSize : Nat) (partOk : Nat → Bool) :
    Nat → Nat → List (Nat × Bytes) × Option Nat
  | _, 0 => ([], none)
  | i, remaining + 1 =>
    let part := slice buffer (i * partSize) (min (i * partSize + partSize) fileSize)
    if partOk i then
      let rest := runParts buffer fileSize partOk (i + 1) remaining
      ((i, part) :: rest.1, rest.2)
    else ([(i, part)], some i)

/-- Upload failure modes surfaced by `uploadLargeFile`: the service gate,
the part failure (reported 1-based as in the thrown message, with the
total), and the commit acknowledgement carrying no document. -/
inductive UploadError where
  | notInitialized
  | partFailed (partNumber totalParts : Nat)
  | noDocument
deriving Repr, DecidableEq

instance {ε α : Type} [DecidableEq ε] [DecidableEq α] :
    DecidableEq (Except ε α) := fun
  | .ok a, .ok b =>
    if h : a = b then isTrue (by rw [h])
    else isFalse (by intro hh; cases hh; exact h rfl)
  | .ok _, .error _ => isFalse (by intro h; cases h)
  | .error _, .ok _ => isFalse (by intro h; cases h)
  | .error e, .error f =>
    if h : e = f then isTrue (by rw [h])
    else isFalse (by intro hh; cases hh; exact h rfl)

/-- What one `uploadLargeFile` call did: the `saveFilePart` calls issued,
whether the `sendMedia` commit was issued, whether a `uploadFile` row was
created, and the returned value or error. -/
structure UploadRun where
  partCalls : List (Nat × Bytes)
  commitCalled : Bool
  dbCreated : Bool
  result : Except UploadError (String × String)
deriving Repr, DecidableEq

/-- The tail of the upload after the part loop: on a part failure, abort
with the part error; otherwise issue the `sendMedia` commit, and create
the `uploadFile` row only when a document could be extracted from the
acknowledgement. -/
def finishUpload (fileId publicUrl : String) (totalParts : Nat)
    (commitDocument : Option String) :
    List (Nat × Bytes) × Option Nat → UploadRun
  | (calls, some i) =>
    ⟨calls, false, false, .error (.partFailed (i + 1) totalParts)⟩
  | (calls, none) =>
    match commitDocument with
    | none => ⟨calls, true, false, .error .noDocument⟩
    | some _ => ⟨calls, true, true, .ok (fileId, publicUrl ++ "/download/" ++ fileId)⟩

/-- The try-block of `uploadLargeFile`: compute the part arithmetic
(`fileSize = fileBuffer.length`, `totalParts = ceil(fileSize/partSize)`),
drive the sequential part loop, then finish with commit and persistence. -/
def uploadLargeFileBody (fileId publicUrl : String) (buffer : Bytes)
    (partOk : Nat → Bool) (commitDocument : Option String) : UploadRun :=
  finishUpload fileId publicUrl (totalPartsOf buffer.length) commitDocument
    (runParts buffer buffer.length partOk 0 (totalPartsOf buffer.length))

/-- `uploadLargeFile(fileBuffer, ...)`: the initialization guard in front
of the upload body. -/
def uploadLargeFile (initialized : Bool) (fileId publicUrl : String)
    (buffer : Bytes) (partOk : Nat → Bool)
    (commitDocument : Option String) : UploadRun :=
  if !initialized then ⟨[], false, false, .error .notInitialized⟩
  else uploadLargeFileBody fileId publicUrl buffer partOk commitDocument

/-! ## Auth sign-in (`TelegramMTProtoService.signIn`) -/

/-- The service `authStatus` object (user is its numeric id). -/
structure AuthStatus where
  authorized : Bool
  user : Option Nat
  phoneCodeHash : Option String
  phoneCodeRequired : Bool
  phoneNumber : Option String
deriving Repr, DecidableEq

/-- What the `auth.signIn` backend call produces: a signed-in user, or a
thrown error carrying its `error_message`. -/
inductive SignInBackendResult where
  | ok (userId : Nat)
  | fail (errorMessage : String)
deriving Repr, DecidableEq

/-- The distinct failure modes of `signIn`: the no-pending-code guard, the
dedicated two-factor rejection, and any other backend error rethrown. -/
inductive SignInError where
  | noPhoneCodeHash
  | twoFactorUnsupported
  | backendError (msg : String)
deriving Repr, DecidableEq

/-- Outcome of one `signIn(code)` call: the new `authStatus`, the new
`initialized` flag, how many backend sign-in calls were issued, and the
returned user or error. -/
structure SignInOutcome where
  status : AuthStatus
  initialized : Bool
  backendCalls : Nat
  result : Except SignInError Nat
deriving Repr, DecidableEq

/-- `signIn(code)`: guard on a pending `phoneCodeHash`, make exactly one
`auth.signIn` call, replace `authStatus` wholesale on success, translate
`SESSION_PASSWORD_NEEDED` into the dedicated two-factor failure without
touching the state, and rethrow anything else. -/
def signIn (st : AuthStatus) (initialized : Bool)
    (backend : SignInBackendResult) : SignInOutcome :=
  match st.phoneCodeHash with
  | none => ⟨st, initialized, 0, .error .noPhoneCodeHash⟩
  | some _ =>
    match backend with
    | .ok userId =>
      ⟨{ authorized := true, user := some userId, phoneCodeHash := none,
         phoneCodeRequired := false, phoneNumber := none }, true, 1, .ok userId⟩
    | .fail msg =>
      if msg = "SESSION_PASSWORD_NEEDED" then
        ⟨st, initialized, 1, .error .twoFactorUnsupported⟩
      else ⟨st, initialized, 1, .error (.backendError msg)⟩

/-! ## Concrete sample data for witnesses -/

/-- A 100-byte stored file with primary key "a". -/
def recSmallA : FileRecord :=
  ⟨"a", "n.bin", "application/octet-stream", 100, "tg1", "ch", "http://x/download/a"⟩

/-- A stored file one byte over the 20 MiB bot limit, primary key "b". -/
def recLargeB : FileRecord :=
  ⟨"b", "big.bin", "application/octet-stream", 20971521, "tg2", "ch", "http://x/download/b"⟩

/-- A stored file of exactly the 20 MiB bot limit, primary key "c". -/
def recThresholdC : FileRecord :=
  ⟨"c", "c.bin", "application/octet-stream", 20971520, "tg3", "ch", "http://x/download/c"⟩

/-- The hex HMAC-SHA256 of "fileId=a&expires=900000" under the default
secret — the signature issued for subject "a" at clock 0. -/
def sigA : String :=
  "5ea84b3bffd1358ce32cac9e5c0ca2d60c11fa0e505eb9dbf0c92b01f966542b"

/-- A stored file whose public URL embeds the UUID "uuid-42" although its
primary key is "pk1". -/
def recUrl42 : FileRecord :=
  ⟨"pk1", "n", "t", 100, "tg", "ch", "http://x/download/uuid-42"⟩

/-! ## Lemmas about the codec -/

set_option maxRecDepth 10000
set_option maxHeartbeats 4000000

/-- Comparing a buffer against itself succeeds. -/
theorem compareDigests_self (a : Bytes) : compareDigests a a = true := by
  simp [compareDigests, timingSafeEqual]

/-- The length-guarded comparison succeeds exactly on equal byte strings. -/
theorem compareDigests_eq_true_iff (a b : Bytes) :
    compareDigests a b = true ↔ a = b := by
  unfold compareDigests timingSafeEqual
  by_cases h : a.length = b.length
  · simp [h]
  · simp [h]
    exact fun hab => h (by rw [hab])

/-- C1: verifying a token immediately after issuance, with the expires and
signature returned by issuance and the same optional client IP, returns
true, and verifying it at any clock time strictly past its expires value
returns false. -/
theorem signedUrl_roundtrip (secret fileId : String) (ip : Option String)
    (now t : Nat)
    (hlate : (generateSignedUrl secret fileId ip now).expires < t) :
    validateSignedUrl secret fileId (generateSignedUrl secret fileId ip now).expires
      (generateSignedUrl secret fileId ip now).signature ip now = true ∧
    validateSignedUrl secret fileId (generateSignedUrl secret fileId ip now).expires
      (generateSignedUrl secret fileId ip now).signature ip t = false := by
  constructor
  · simp only [generateSignedUrl, validateSignedUrl]
    rw [if_neg (by omega)]
    exact compareDigests_self _
  · simp only [validateSignedUrl]
    rw [if_pos hlate]

/-- Witness for C1: the spec's scenario at the default secret, subject
"f1", issuance clock 0 and verification clock 900001 = expiry + 1 ms. -/
theorem signedUrl_roundtrip_witness :
    (generateSignedUrl DEFAULT_SECRET "f1" none 0).expires < 900001 ∧
    (validateSignedUrl DEFAULT_SECRET "f1"
        (generateSignedUrl DEFAULT_SECRET "f1" none 0).expires
        (generateSignedUrl DEFAULT_SECRET "f1" none 0).signature none 0 = true ∧
      validateSignedUrl DEFAULT_SECRET "f1"
        (generateSignedUrl DEFAULT_SECRET "f1" none 0).expires
        (generateSignedUrl DEFAULT_SECRET "f1" none 0).signature none 900001 = false) :=
  ⟨by decide, signedUrl_roundtrip DEFAULT_SECRET "f1" none 0 900001 (by decide)⟩

/-- C2 counterexample: at the default secret, subject "f1" and issuance
clock 0, the string actually signed is "fileId=f1&expires=900000" rather
than the pipe-separated canonical string the spec names, and the issued
signature is not the HMAC of the spec's canonical string. -/
theorem canonicalString_cex :
    stringToSign "f1" 900000 none ≠ specCanonicalString "f1" 900000 none ∧
    (generateSignedUrl DEFAULT_SECRET "f1" none 0).signature ≠
      hexEncode (hmacSha256 (strBytes DEFAULT_SECRET)
        (strBytes (specCanonicalString "f1" 900000 none))) := by
  constructor
  · decide
  · decide

/-- C2 (amended): the signature is the keyed HMAC-SHA256, hex encoded, of
the canonical string built as fileId=(subjectId)&expires=(expiresAtEpochMs)
with &ip=(clientIp) appended when a non-empty client IP is bound, and
verification before expiry recomputes that same canonical string and
accepts exactly the signature strings whose hex decoding equals that of
the recomputed HMAC (the length-guarded timingSafeEqual byte comparison;
constant-time execution is a runtime property outside this model). -/
theorem signature_canonical (secret fileId sig : String) (ip : Option String)
    (now t : Nat) (ht : t ≤ now + SIGNATURE_EXPIRY_MS) :
    (generateSignedUrl secret fileId ip now).signature =
      hexEncode (hmacSha256 (strBytes secret)
        (strBytes (stringToSign fileId (now + SIGNATURE_EXPIRY_MS) ip))) ∧
    (validateSignedUrl secret fileId (now + SIGNATURE_EXPIRY_MS) sig ip t = true ↔
      bufFromHex sig =
        bufFromHex (hexEncode (hmacSha256 (strBytes secret)
          (strBytes (stringToSign fileId (now + SIGNATURE_EXPIRY_MS) ip))))) := by
  constructor
  · rfl
  · unfold validateSignedUrl
    rw [if_neg (by omega)]
    exact compareDigests_eq_true_iff _ _

/-- Witness for the amended C2 at concrete inputs. -/
theorem signature_canonical_witness :
    (0 : Nat) ≤ 0 + SIGNATURE_EXPIRY_MS ∧
    ((generateSignedUrl DEFAULT_SECRET "f1" none 0).signature =
      hexEncode (hmacSha256 (strBytes DEFAULT_SECRET)
        (strBytes (stringToSign "f1" (0 + SIGNATURE_EXPIRY_MS) none))) ∧
    (validateSignedUrl DEFAULT_SECRET "f1" (0 + SIGNATURE_EXPIRY_MS) "00" none 0 = true ↔
      bufFromHex "00" =
        bufFromHex (hexEncode (hmacSha256 (strBytes DEFAULT_SECRET)
          (strBytes (stringToSign "f1" (0 + SIGNATURE_EXPIRY_MS) none)))))) :=
  ⟨by decide, signature_canonical DEFAULT_SECRET "f1" "00" none 0 0 (by decide)⟩

/-! ## Lemmas about hex encoding, decoding and digests -/

/-- Encoding a nibble yields a hex digit that decodes back to it. -/
theorem hexVal_hexDigitChar : ∀ n, n < 16 → hexVal (hexDigitChar n) = some n := by
  decide

/-- Every byte `be32` emits is below 256. -/
theorem be32_lt (w : Nat) : ∀ b ∈ be32 w, b < 256 := by
  intro b hb
  simp only [be32, List.mem_cons, List.not_mem_nil, or_false] at hb
  rcases hb with h | h | h | h <;> (subst h; omega)

/-- Every byte of a SHA-256 digest is below 256. -/
theorem sha256_lt (m : Bytes) : ∀ b ∈ sha256 m, b < 256 := by
  intro b hb
  unfold sha256 at hb
  rw [List.mem_flatMap] at hb
  obtain ⟨w, _, hw⟩ := hb
  exact be32_lt w b hw

/-- Every byte of an HMAC-SHA256 digest is below 256. -/
theorem hmacSha256_lt (k m : Bytes) : ∀ b ∈ hmacSha256 k m, b < 256 := by
  unfold hmacSha256
  exact sha256_lt _

/-- The compression-round fold keeps the 8-word state shape. -/
theorem foldl_shaRound_length (l : List (Nat × Nat)) (st : List Nat)
    (h : st.length = 8) : (List.foldl shaRound st l).length = 8 := by
  induction l generalizing st with
  | nil => exact h
  | cons x xs ih => exact ih _ (by simp [shaRound])

/-- One block compression keeps the 8-word hash shape. -/
theorem shaBlock_length (st : List Nat) (b : Bytes) (h : st.length = 8) :
    (shaBlock st b).length = 8 := by
  simp [shaBlock, foldl_shaRound_length _ _ h, h]

/-- The block fold keeps the 8-word hash shape. -/
theorem foldl_shaBlock_length (blocks : List Bytes) (st : List Nat)
    (h : st.length = 8) : (List.foldl shaBlock st blocks).length = 8 := by
  induction blocks generalizing st with
  | nil => exact h
  | cons b bs ih => exact ih _ (shaBlock_length _ _ h)

/-- Serialising words to bytes emits four bytes per word. -/
theorem flatMap_be32_length (l : List Nat) :
    (l.flatMap be32).length = 4 * l.length := by
  induction l with
  | nil => rfl
  | cons w ws ih => simp [be32, ih]; omega

/-- A SHA-256 digest is 32 bytes. -/
theorem sha256_length (m : Bytes) : (sha256 m).length = 32 := by
  unfold sha256
  rw [flatMap_be32_length, foldl_shaBlock_length (chunks64 (shaPad m)) shaH0 rfl]

/-- An HMAC-SHA256 digest is 32 bytes. -/
theorem hmacSha256_length (k m : Bytes) : (hmacSha256 k m).length = 32 := by
  unfold hmacSha256
  exact sha256_length _

/-- Unfolding the hex encoding of one byte. -/
theorem hexChars_cons (b : Nat) (rest : Bytes) :
    hexChars (b :: rest) =
      hexDigitChar (b / 16) :: hexDigitChar (b % 16) :: hexChars rest := rfl

/-- Hex encoding emits two chars per byte. -/
theorem hexChars_length (bs : Bytes) : (hexChars bs).length = 2 * bs.length := by
  induction bs with
  | nil => rfl
  | cons b rest ih =>
    rw [hexChars_cons]
    simp only [List.length_cons, ih]
    omega

/-- Every char of the hex encoding of genuine bytes is a hex digit. -/
theorem hexChars_all_hex (bs : Bytes) (h : ∀ b ∈ bs, b < 256) :
    ∀ c ∈ hexChars bs, (hexVal c).isSome := by
  induction bs with
  | nil => intro c hc; simp [hexChars] at hc
  | cons b rest ih =>
    intro c hc
    have hb : b < 256 := h b (by simp)
    rw [hexChars_cons] at hc
    rcases List.mem_cons.mp hc with hc1 | hc'
    · rw [hc1, hexVal_hexDigitChar (b / 16) (by omega)]; rfl
    · rcases List.mem_cons.mp hc' with hc2 | hc''
      · rw [hc2, hexVal_hexDigitChar (b % 16) (by omega)]; rfl
      · exact ih (fun x hx => h x (by simp [hx])) c hc''

/-- Decoding inverts encoding on genuine bytes. -/
theorem hexDecodeChars_hexChars (bs : Bytes) (h : ∀ b ∈ bs, b < 256) :
    hexDecodeChars (hexChars bs) = bs := by
  induction bs with
  | nil => rfl
  | cons b rest ih =>
    have hb : b < 256 := h b (by simp)
    rw [hexChars_cons]
    simp only [hexDecodeChars, hexVal_hexDigitChar (b / 16) (by omega),
      hexVal_hexDigitChar (b % 16) (by omega)]
    rw [ih (fun x hx => h x (by simp [hx]))]
    congr 1
    omega

/-- Structural induction on a char list two entries at a time. -/
theorem twoStepInduction {motive : List Char → Prop} (hnil : motive [])
    (hsingle : ∀ c, motive [c])
    (hcons2 : ∀ c1 c2 rest, motive rest → motive (c1 :: c2 :: rest)) :
    ∀ xs, motive xs
  | [] => hnil
  | [c] => hsingle c
  | c1 :: c2 :: rest =>
    hcons2 c1 c2 rest (twoStepInduction hnil hsingle hcons2 rest)

/-- On an even-length all-hex char list, decoding consumes everything. -/
theorem hexDecodeChars_length_all_hex :
    ∀ xs, (∀ c ∈ xs, (hexVal c).isSome) → xs.length % 2 = 0 →
      2 * (hexDecodeChars xs).length = xs.length := by
  intro xs
  induction xs using twoStepInduction with
  | hnil => intro _ _; rfl
  | hsingle c => intro _ h2; simp at h2
  | hcons2 c1 c2 rest ih =>
    intro hall h2
    obtain ⟨v1, hv1⟩ := Option.isSome_iff_exists.mp (hall c1 (by simp))
    obtain ⟨v2, hv2⟩ := Option.isSome_iff_exists.mp (hall c2 (by simp))
    simp only [hexDecodeChars, hv1, hv2]
    have := ih (fun c hc => hall c (by simp [hc])) (by simp at h2 ⊢; omega)
    simp only [List.length_cons]
    omega

/-- The length-guarded comparison rejects distinct byte strings. -/
theorem compareDigests_eq_false_of_ne (a b : Bytes) (h : a ≠ b) :
    compareDigests a b = false := by
  cases hcd : compareDigests a b
  · rfl
  · exact absurd ((compareDigests_eq_true_iff a b).mp hcd) h

/-- Planting a non-hex char at position `i` truncates the decode strictly
before byte `i / 2`. -/
theorem hexDecodeChars_set_invalid :
    ∀ (xs : List Char) (i : Nat) (c : Char),
      (∀ d ∈ xs, (hexVal d).isSome) → i < xs.length → hexVal c = none →
      2 * (hexDecodeChars (xs.set i c)).length ≤ i := by
  intro xs
  induction xs using twoStepInduction with
  | hnil => intro i c _ hi _; simp at hi
  | hsingle c1 =>
    intro i c _ hi hc
    have h0 : i = 0 := by simp at hi; omega
    subst h0
    exact Nat.le.refl
  | hcons2 c1 c2 rest ih =>
    intro i c hall hi hc
    cases i with
    | zero =>
      show 2 * (hexDecodeChars (c :: c2 :: rest)).length ≤ 0
      simp [hexDecodeChars, hc]
    | succ i1 =>
      cases i1 with
      | zero =>
        show 2 * (hexDecodeChars (c1 :: c :: rest)).length ≤ 1
        obtain ⟨v1, hv1⟩ := Option.isSome_iff_exists.mp (hall c1 (by simp))
        simp [hexDecodeChars, hv1, hc]
      | succ k =>
        show 2 * (hexDecodeChars (c1 :: c2 :: rest.set k c)).length ≤ k + 2
        obtain ⟨v1, hv1⟩ := Option.isSome_iff_exists.mp (hall c1 (by simp))
        obtain ⟨v2, hv2⟩ := Option.isSome_iff_exists.mp (hall c2 (by simp))
        simp only [hexDecodeChars, hv1, hv2]
        have hk := ih k c (fun d hd => hall d (by simp [hd]))
          (by simp at hi; omega) hc
        simp only [List.length_cons]
        omega

/-- Replacing the char at position `i` of an even-length all-hex list by a
hex digit of a different nibble value changes the decoded bytes. -/
theorem hexDecodeChars_set_diffVal :
    ∀ (xs : List Char) (i : Nat) (c : Char) (v w : Nat),
      (∀ d ∈ xs, (hexVal d).isSome) → xs.length % 2 = 0 → i < xs.length →
      hexVal c = some v → hexVal (xs.getD i ' ') = some w → v ≠ w →
      hexDecodeChars (xs.set i c) ≠ hexDecodeChars xs := by
  intro xs
  induction xs using twoStepInduction with
  | hnil => intro i c v w _ _ hi _ _ _; simp at hi
  | hsingle c1 => intro i c v w _ h2 _ _ _ _; simp at h2
  | hcons2 c1 c2 rest ih =>
    intro i c v w hall h2 hi hvc hgw hvw
    obtain ⟨v1, hv1⟩ := Option.isSome_iff_exists.mp (hall c1 (by simp))
    obtain ⟨v2, hv2⟩ := Option.isSome_iff_exists.mp (hall c2 (by simp))
    cases i with
    | zero =>
      have hw : v1 = w := by
        rw [show (c1 :: c2 :: rest).getD 0 ' ' = c1 from rfl, hv1] at hgw
        injection hgw
      show hexDecodeChars (c :: c2 :: rest) ≠ hexDecodeChars (c1 :: c2 :: rest)
      simp only [hexDecodeChars, hvc, hv1, hv2]
      intro heq
      have hhead : 16 * v + v2 = 16 * v1 + v2 := by injection heq
      exact hvw (by omega)
    | succ i1 =>
      cases i1 with
      | zero =>
        have hw : v2 = w := by
          rw [show (c1 :: c2 :: rest).getD 1 ' ' = c2 from rfl, hv2] at hgw
          injection hgw
        show hexDecodeChars (c1 :: c :: rest) ≠ hexDecodeChars (c1 :: c2 :: rest)
        simp only [hexDecodeChars, hvc, hv1, hv2]
        intro heq
        have hhead : 16 * v1 + v = 16 * v1 + v2 := by injection heq
        exact hvw (by omega)
      | succ k =>
        show hexDecodeChars (c1 :: c2 :: rest.set k c) ≠
          hexDecodeChars (c1 :: c2 :: rest)
        simp only [hexDecodeChars, hv1, hv2]
        intro heq
        have htail : hexDecodeChars (rest.set k c) = hexDecodeChars rest := by
          injection heq
        exact ih k c v w (fun d hd => hall d (by simp [hd]))
          (by simp at h2 ⊢; omega) (by simp at hi; omega) hvc hgw hvw htail

/-- C4 counterexample: Node hex decoding is case-insensitive, so replacing
the first character of the issued signature (a lowercase letter) by its
uppercase variant — a different character — leaves verification returning
true before expiry. -/
theorem tamper_hexcase_cex :
    (generateSignedUrl DEFAULT_SECRET "f1" none 0).signature =
      "aa1313929f2f4c60af610a1c3e7b5b3b2a8d99a005e00d616b4e51801cfa2d44" ∧
    "Aa1313929f2f4c60af610a1c3e7b5b3b2a8d99a005e00d616b4e51801cfa2d44" ≠
      "aa1313929f2f4c60af610a1c3e7b5b3b2a8d99a005e00d616b4e51801cfa2d44" ∧
    ("Aa1313929f2f4c60af610a1c3e7b5b3b2a8d99a005e00d616b4e51801cfa2d44").data =
      ("aa1313929f2f4c60af610a1c3e7b5b3b2a8d99a005e00d616b4e51801cfa2d44").data.set 0 'A' ∧
    validateSignedUrl DEFAULT_SECRET "f1" 900000
      "Aa1313929f2f4c60af610a1c3e7b5b3b2a8d99a005e00d616b4e51801cfa2d44" none 0 = true :=
  ⟨by decide, by decide, by decide, by decide⟩

/-- C4 (amended): before expiry, replacing a single character of the hex
signature string by a character with a different hex-nibble value (in
particular by any non-hex character) makes verification return false —
replacement by the other-case variant of the same hex digit is the one
exception, since Node hex decoding is case-insensitive — and changing the
subject id makes verification return false whenever the HMAC of the new
canonical string differs from the issued signature (which HMAC collision
resistance guarantees in practice but which is not a mathematical
theorem). -/
theorem tamper_verification (secret fileId fid2 : String) (ip : Option String)
    (now t i : Nat) (c : Char)
    (ht : t ≤ now + SIGNATURE_EXPIRY_MS) :
    (i < (generateSignedUrl secret fileId ip now).signature.data.length →
      hexVal c ≠ hexVal ((generateSignedUrl secret fileId ip now).signature.data.getD i ' ') →
      validateSignedUrl secret fileId (generateSignedUrl secret fileId ip now).expires
        (String.mk ((generateSignedUrl secret fileId ip now).signature.data.set i c))
        ip t = false) ∧
    (hexEncode (hmacSha256 (strBytes secret)
        (strBytes (stringToSign fid2 (generateSignedUrl secret fileId ip now).expires ip))) ≠
        (generateSignedUrl secret fileId ip now).signature →
      validateSignedUrl secret fid2 (generateSignedUrl secret fileId ip now).expires
        (generateSignedUrl secret fileId ip now).signature ip t = false) := by
  have hexp : (generateSignedUrl secret fileId ip now).expires =
      now + SIGNATURE_EXPIRY_MS := rfl
  set D := hmacSha256 (strBytes secret)
    (strBytes (stringToSign fileId (now + SIGNATURE_EXPIRY_MS) ip)) with hDdef
  have hDlt : ∀ b ∈ D, b < 256 := hmacSha256_lt _ _
  have hDlen : D.length = 32 := hmacSha256_length _ _
  have hround : bufFromHex (hexEncode D) = D := hexDecodeChars_hexChars D hDlt
  have hclen : (hexChars D).length = 64 := by rw [hexChars_length, hDlen]
  constructor
  · intro hi hne
    unfold validateSignedUrl
    rw [hexp, if_neg (by omega)]
    apply compareDigests_eq_false_of_ne
    show hexDecodeChars ((hexChars D).set i c) ≠ bufFromHex (hexEncode D)
    rw [hround]
    have hi64 : i < 64 := by
      have : (generateSignedUrl secret fileId ip now).signature.data =
        hexChars D := rfl
      rw [this, hclen] at hi
      exact hi
    cases hc : hexVal c with
    | none =>
      intro heq
      have hlen := hexDecodeChars_set_invalid (hexChars D) i c
        (hexChars_all_hex D hDlt) (by omega) hc
      rw [heq, hDlen] at hlen
      omega
    | some v =>
      have hmem : (hexChars D).getD i ' ' ∈ hexChars D := by
        rw [List.getD_eq_getElem (hexChars D) ' ' (by omega)]
        exact List.getElem_mem _
      obtain ⟨w, hw⟩ := Option.isSome_iff_exists.mp
        (hexChars_all_hex D hDlt _ hmem)
      have hvw : v ≠ w := by
        intro hvw0
        apply hne
        show hexVal c = hexVal ((hexChars D).getD i ' ')
        rw [hc, hw, hvw0]
      have hfin := hexDecodeChars_set_diffVal (hexChars D) i c v w
        (hexChars_all_hex D hDlt) (by omega) (by omega) hc hw hvw
      rw [hexDecodeChars_hexChars D hDlt] at hfin
      exact hfin
  · intro hne2
    unfold validateSignedUrl
    rw [hexp, if_neg (by omega)]
    apply compareDigests_eq_false_of_ne
    set D2 := hmacSha256 (strBytes secret)
      (strBytes (stringToSign fid2 (now + SIGNATURE_EXPIRY_MS) ip)) with hD2def
    have hround2 : bufFromHex (hexEncode D2) = D2 :=
      hexDecodeChars_hexChars D2 (hmacSha256_lt _ _)
    show bufFromHex (hexEncode D) ≠ bufFromHex (hexEncode D2)
    rw [hround, hround2]
    intro hDD2
    apply hne2
    rw [hexp]
    show hexEncode D2 = hexEncode D
    rw [hDD2]

/-- Witness for the amended C4: at the default secret and subject "f1",
replacing signature character 0 by the non-hex character 'z' fails
verification, and verifying subject "f2" against the "f1" signature fails
verification. -/
theorem tamper_verification_witness :
    validateSignedUrl DEFAULT_SECRET "f1"
      (generateSignedUrl DEFAULT_SECRET "f1" none 0).expires
      (String.mk ((generateSignedUrl DEFAULT_SECRET "f1" none 0).signature.data.set 0 'z'))
      none 0 = false ∧
    validateSignedUrl DEFAULT_SECRET "f2"
      (generateSignedUrl DEFAULT_SECRET "f1" none 0).expires
      (generateSignedUrl DEFAULT_SECRET "f1" none 0).signature none 0 = false :=
  ⟨(tamper_verification DEFAULT_SECRET "f1" "f2" none 0 0 0 'z' (by decide)).1
      (by decide) (by decide),
    (tamper_verification DEFAULT_SECRET "f1" "f2" none 0 0 0 'z' (by decide)).2
      (by decide)⟩

/-- C3 counterexample: for a stored 100-byte record (under the bot limit)
whose backend lookup call errors, the plain download path answers with a
hard 500 error, not the structured manual-retrieval response. -/
theorem backend_failure_cex :
    streamFile [recSmallA] "token" (fun _ => BackendFileResult.err "boom") "a" =
      .serverError "Error retrieving file from Telegram" ∧
    isManualRetrieval
      (streamFile [recSmallA] "token" (fun _ => BackendFileResult.err "boom") "a") =
      false := by
  constructor
  · decide
  · decide

/-- C3 (amended): backend lookup failures on the download path do not
produce the manual-retrieval response. For a found record at or under the
20 MiB threshold, an erroring backend call yields a hard 500 and a
response without a resolvable path yields a 404; the manual-retrieval
response is produced exactly for records above the threshold, before and
independently of any backend lookup; on the signed-redirect path a
backend response without a resolvable path falls back to a redirect to
the stream endpoint, while an erroring call yields a hard 500. -/
theorem backend_failure_semantics (secret : String) (db : List FileRecord)
    (botToken : String) (backend : String → BackendFileResult)
    (id : String) (file : FileRecord) (msg : String)
    (hid : id ≠ "") (hbt : botToken ≠ "")
    (hfound : lookupFile db id = some file) :
    (MAX_BOT_DOWNLOAD_SIZE < file.fileSize →
      streamFile db botToken backend id =
        .largeFileInstructions file.fileName file.channelId
          file.telegramFileId file.id ∧
      isManualRetrieval (streamFile db botToken backend id) = true ∧
      ∀ backend2, streamFile db botToken backend id =
        streamFile db botToken backend2 id) ∧
    (file.fileSize ≤ MAX_BOT_DOWNLOAD_SIZE →
      (backend file.telegramFileId = .err msg →
        streamFile db botToken backend id =
          .serverError "Error retrieving file from Telegram" ∧
        isManualRetrieval (streamFile db botToken backend id) = false) ∧
      (backend file.telegramFileId = .okNoPath →
        streamFile db botToken backend id =
          .notFound "File not found on Telegram servers")) ∧
    (∀ es ss clientIp now expiresNum,
      isDirectTelegramId id = false →
      es ≠ "" → ss ≠ "" →
      parseInt10 es = some expiresNum →
      validateSignedUrl secret id expiresNum ss clientIp now = true →
      findUniqueById db id = some file →
      (backend file.telegramFileId = .err msg →
        (handleRedirect secret db botToken backend id (some es) (some ss)
          clientIp now).response = .serverError "Error retrieving file") ∧
      (backend file.telegramFileId = .okNoPath →
        (handleRedirect secret db botToken backend id (some es) (some ss)
          clientIp now).response =
          .redirect ("/download/" ++ id ++ "/stream"))) := by
  refine ⟨?_, ?_, ?_⟩
  · intro hbig
    have h1 : streamFile db botToken backend id =
        .largeFileInstructions file.fileName file.channelId
          file.telegramFileId file.id := by
      simp [streamFile, hid, hfound, hbig, hbt]
    refine ⟨h1, by rw [h1]; rfl, ?_⟩
    intro backend2
    rw [h1]
    simp [streamFile, hid, hfound, hbig, hbt]
  · intro hsmall
    have hns : ¬ MAX_BOT_DOWNLOAD_SIZE < file.fileSize := by omega
    constructor
    · intro herr
      have h1 : streamFile db botToken backend id =
          .serverError "Error retrieving file from Telegram" := by
        simp [streamFile, hid, hfound, hns, hbt, herr]
      exact ⟨h1, by rw [h1]; rfl⟩
    · intro hnp
      simp [streamFile, hid, hfound, hns, hbt, hnp]
  · intro es ss clientIp now expiresNum hdir hes hss hparse hvalid hfu
    constructor
    · intro hb
      simp [handleRedirect, hid, hdir, truthyQ, hes, hss, hparse, hvalid,
        hfu, hbt, hb]
    · intro hb
      simp [handleRedirect, hid, hdir, truthyQ, hes, hss, hparse, hvalid,
        hfu, hbt, hb]

/-- Witness for the amended C3: the four failure shapes at concrete
records — the large record gets the instruction page, the small record
gets 500 and 404 on the two backend failures, the redirect path gets 500
on an erroring backend. -/
theorem backend_failure_semantics_witness :
    streamFile [recLargeB] "token" (fun _ => BackendFileResult.err "boom") "b" =
      .largeFileInstructions "big.bin" "ch" "tg2" "b" ∧
    streamFile [recSmallA] "token" (fun _ => BackendFileResult.err "boom") "a" =
      .serverError "Error retrieving file from Telegram" ∧
    streamFile [recSmallA] "token" (fun _ => BackendFileResult.okNoPath) "a" =
      .notFound "File not found on Telegram servers" ∧
    (handleRedirect DEFAULT_SECRET [recSmallA] "token"
      (fun _ => BackendFileResult.err "boom") "a"
      (some "900000") (some sigA) none 0).response =
      .serverError "Error retrieving file" :=
  ⟨((backend_failure_semantics DEFAULT_SECRET [recLargeB] "token"
      (fun _ => BackendFileResult.err "boom") "b" recLargeB "boom"
      (by decide) (by decide) (by decide)).1 (by decide)).1,
    (((backend_failure_semantics DEFAULT_SECRET [recSmallA] "token"
      (fun _ => BackendFileResult.err "boom") "a" recSmallA "boom"
      (by decide) (by decide) (by decide)).2.1 (by decide)).1 (by decide)).1,
    ((backend_failure_semantics DEFAULT_SECRET [recSmallA] "token"
      (fun _ => BackendFileResult.okNoPath) "a" recSmallA "boom"
      (by decide) (by decide) (by decide)).2.1 (by decide)).2 (by decide),
    ((backend_failure_semantics DEFAULT_SECRET [recSmallA] "token"
      (fun _ => BackendFileResult.err "boom") "a" recSmallA "boom"
      (by decide) (by decide) (by decide)).2.2 "900000" sigA none 0 900000
      (by decide) (by decide) (by decide) (by decide) (by decide)
      (by decide)).1 (by decide)⟩

/-- C7: a stored file of exactly the 20 MiB threshold takes the
inline-stream path, and one byte larger takes the manual-retrieval
fallback path. -/
theorem threshold_boundary (db : List FileRecord) (botToken : String)
    (backend : String → BackendFileResult) (id : String) (file : FileRecord)
    (filePath : String) (hid : id ≠ "") (hbt : botToken ≠ "")
    (hfound : lookupFile db id = some file) :
    (file.fileSize = MAX_BOT_DOWNLOAD_SIZE →
      backend file.telegramFileId = .ok filePath →
      streamFile db botToken backend id =
        .inlineStream (fileUrl botToken filePath) file.fileType file.fileName) ∧
    (file.fileSize = MAX_BOT_DOWNLOAD_SIZE + 1 →
      streamFile db botToken backend id =
        .largeFileInstructions file.fileName file.channelId
          file.telegramFileId file.id) := by
  constructor
  · intro hsz hb
    have hns : ¬ MAX_BOT_DOWNLOAD_SIZE < file.fileSize := by omega
    simp [streamFile, hid, hfound, hns, hbt, hb]
  · intro hsz
    have hbig : MAX_BOT_DOWNLOAD_SIZE < file.fileSize := by omega
    simp [streamFile, hid, hfound, hbig, hbt]

/-- Witness for C7 at 20971520-byte and 20971521-byte records. -/
theorem threshold_boundary_witness :
    streamFile [recThresholdC] "token" (fun _ => BackendFileResult.ok "p/c.bin") "c" =
      .inlineStream (fileUrl "token" "p/c.bin") "application/octet-stream" "c.bin" ∧
    streamFile [recLargeB] "token" (fun _ => BackendFileResult.ok "p/b.bin") "b" =
      .largeFileInstructions "big.bin" "ch" "tg2" "b" :=
  ⟨(threshold_boundary [recThresholdC] "token"
      (fun _ => BackendFileResult.ok "p/c.bin") "c" recThresholdC "p/c.bin"
      (by decide) (by decide) (by decide)).1 (by decide) (by decide),
    (threshold_boundary [recLargeB] "token"
      (fun _ => BackendFileResult.ok "p/b.bin") "b" recLargeB "p/b.bin"
      (by decide) (by decide) (by decide)).2 (by decide)⟩

/-- C8: on the signed redirect entry point, for a file id outside the
recognized backend-handle prefixes and well-formed query parameters,
failed verification answers 403 with neither a database lookup nor a
backend call, and successful verification resolves the backend retrieval
URL and answers with a redirect rather than proxying bytes. -/
theorem signed_redirect_order (secret : String) (db : List FileRecord)
    (botToken : String) (backend : String → BackendFileResult)
    (fileId es ss : String) (clientIp : Option String) (now expiresNum : Nat)
    (hdir : isDirectTelegramId fileId = false)
    (hid : fileId ≠ "") (hes : es ≠ "") (hss : ss ≠ "")
    (hparse : parseInt10 es = some expiresNum) :
    (validateSignedUrl secret fileId expiresNum ss clientIp now = false →
      handleRedirect secret db botToken backend fileId (some es) (some ss)
        clientIp now =
        ⟨.forbidden "Invalid or expired signature", false, false⟩) ∧
    (∀ file filePath,
      validateSignedUrl secret fileId expiresNum ss clientIp now = true →
      findUniqueById db fileId = some file →
      botToken ≠ "" →
      backend file.telegramFileId = .ok filePath →
      (handleRedirect secret db botToken backend fileId (some es) (some ss)
        clientIp now).response = .redirect (fileUrl botToken filePath)) := by
  constructor
  · intro hv
    simp [handleRedirect, hid, hdir, truthyQ, hes, hss, hparse, hv]
  · intro file filePath hv hfu hbt hb
    simp [handleRedirect, hid, hdir, truthyQ, hes, hss, hparse, hv, hfu,
      hbt, hb]

/-- Witness for C8: an expired signature gets 403 without touching
database or backend; the genuine signature for subject "a" gets the
backend CDN redirect. -/
theorem signed_redirect_order_witness :
    handleRedirect DEFAULT_SECRET [recSmallA] "token"
      (fun _ => BackendFileResult.ok "p/x.bin") "a"
      (some "900000") (some "00") none 900001 =
      ⟨.forbidden "Invalid or expired signature", false, false⟩ ∧
    (handleRedirect DEFAULT_SECRET [recSmallA] "token"
      (fun _ => BackendFileResult.ok "p/x.bin") "a"
      (some "900000") (some sigA) none 0).response =
      .redirect (fileUrl "token" "p/x.bin") :=
  ⟨(signed_redirect_order DEFAULT_SECRET [recSmallA] "token"
      (fun _ => BackendFileResult.ok "p/x.bin") "a" "900000" "00" none
      900001 900000 (by decide) (by decide) (by decide) (by decide)
      (by decide)).1 (by decide),
    (signed_redirect_order DEFAULT_SECRET [recSmallA] "token"
      (fun _ => BackendFileResult.ok "p/x.bin") "a" "900000" sigA none
      0 900000 (by decide) (by decide) (by decide) (by decide)
      (by decide)).2 recSmallA "p/x.bin" (by decide) (by decide)
      (by decide) (by decide)⟩

/-! ## Lemmas about the part-upload loop -/

/-- With an all-succeeding backend the loop reports no failure. -/
theorem runParts_ok_none (buffer : Bytes) (fileSize : Nat) :
    ∀ (r i : Nat), (runParts buffer fileSize (fun _ => true) i r).2 = none := by
  intro r
  induction r with
  | zero => intro i; rfl
  | succ r ih => intro i; simp [runParts]; exact ih (i + 1)

/-- With an all-succeeding backend the loop issues one call per part. -/
theorem runParts_ok_length (buffer : Bytes) (fileSize : Nat) :
    ∀ (r i : Nat), (runParts buffer fileSize (fun _ => true) i r).1.length = r := by
  intro r
  induction r with
  | zero => intro i; rfl
  | succ r ih => intro i; simp [runParts]; exact ih (i + 1)

/-- With an all-succeeding backend, the j-th call of the loop started at
index `i` uploads part `i + j`, which is exactly the slice from
`(i+j)*partSize` to `min((i+j+1)*partSize, fileSize)`. -/
theorem runParts_ok_getD (buffer : Bytes) (fileSize : Nat) :
    ∀ (r i j : Nat), j < r →
      (runParts buffer fileSize (fun _ => true) i r).1.getD j (0, []) =
        (i + j, slice buffer ((i + j) * partSize)
          (min ((i + j) * partSize + partSize) fileSize)) := by
  intro r
  induction r with
  | zero => intro i j hj; exact absurd hj (by omega)
  | succ r ih =>
    intro i j hj
    cases j with
    | zero => simp [runParts]
    | succ j2 =>
      have harith : i + 1 + j2 = i + (j2 + 1) := by omega
      have h := ih (i + 1) j2 (by omega)
      rw [harith] at h
      simp only [runParts, if_true]
      rw [List.getD_cons_succ]
      exact h

/-- The first failing part stops the loop: the failure index is reported
and the calls attempted are exactly parts `i .. i+j`. -/
theorem runParts_fail_spec (buffer : Bytes) (fileSize : Nat) (partOk : Nat → Bool) :
    ∀ (r i j : Nat), j < r → partOk (i + j) = false →
      (∀ k, k < j → partOk (i + k) = true) →
      (runParts buffer fileSize partOk i r).2 = some (i + j) ∧
      (runParts buffer fileSize partOk i r).1.map Prod.fst =
        (List.range (j + 1)).map (i + ·) := by
  intro r
  induction r with
  | zero => intro i j hj _ _; exact absurd hj (by omega)
  | succ r ih =>
    intro i j hjr hfail hmin
    cases j with
    | zero =>
      have hf : partOk i = false := by simpa using hfail
      constructor
      · simp [runParts, hf]
      · simp [runParts, hf, List.range_succ]
    | succ j2 =>
      have ht : partOk i = true := by simpa using hmin 0 (by omega)
      have harith : i + 1 + j2 = i + (j2 + 1) := by omega
      have hfail2 : partOk (i + 1 + j2) = false := by rw [harith]; exact hfail
      have hmin2 : ∀ k, k < j2 → partOk (i + 1 + k) = true := by
        intro k hk
        have hk2 : i + 1 + k = i + (k + 1) := by omega
        rw [hk2]; exact hmin (k + 1) (by omega)
      have h := ih (i + 1) j2 (by omega) hfail2 hmin2
      constructor
      · simp only [runParts, ht, if_true]
        rw [h.1, harith]
      · have hr : (List.range (j2 + 1 + 1)).map (fun x => i + x) =
            i :: (List.range (j2 + 1)).map (fun x => i + 1 + x) := by
          rw [List.range_succ_eq_map]
          simp only [List.map_cons, List.map_map, Nat.add_zero]
          congr 1
          apply List.map_congr_left
          intro a _
          simp only [Function.comp_apply]
          omega
        simp only [runParts, ht, if_true, List.map_cons]
        rw [h.2, hr]

/-- For an initialized service, `uploadLargeFile` runs its try-block. -/
theorem uploadLargeFile_true (fileId publicUrl : String) (buffer : Bytes)
    (partOk : Nat → Bool) (commitDocument : Option String) :
    uploadLargeFile true fileId publicUrl buffer partOk commitDocument =
      uploadLargeFileBody fileId publicUrl buffer partOk commitDocument := by
  delta uploadLargeFile
  rw [if_neg (show ¬((!true) = true) by decide)]

/-- Unfolding the upload body into its finishing step. -/
theorem uploadLargeFileBody_def (fileId publicUrl : String) (buffer : Bytes)
    (partOk : Nat → Bool) (commitDocument : Option String) :
    uploadLargeFileBody fileId publicUrl buffer partOk commitDocument =
      finishUpload fileId publicUrl (totalPartsOf buffer.length) commitDocument
        (runParts buffer buffer.length partOk 0 (totalPartsOf buffer.length)) := rfl

/-- When the loop reports no failure, the body issues exactly the loop's
part calls. -/
theorem uploadLargeFileBody_ok (fileId publicUrl : String) (buffer : Bytes)
    (commitDocument : Option String) (calls : List (Nat × Bytes))
    (hrp : runParts buffer buffer.length (fun _ => true) 0
      (totalPartsOf buffer.length) = (calls, none)) :
    (uploadLargeFileBody fileId publicUrl buffer (fun _ => true)
      commitDocument).partCalls = calls := by
  rw [uploadLargeFileBody_def, hrp]
  cases commitDocument <;> rfl

/-- When the loop reports a failure at part `j`, the body surfaces the
part error and neither commits nor persists. -/
theorem uploadLargeFileBody_fail (fileId publicUrl : String) (buffer : Bytes)
    (partOk : Nat → Bool) (commitDocument : Option String)
    (calls : List (Nat × Bytes)) (j : Nat)
    (hrp : runParts buffer buffer.length partOk 0 (totalPartsOf buffer.length) =
      (calls, some j)) :
    uploadLargeFileBody fileId publicUrl buffer partOk commitDocument =
      ⟨calls, false, false, .error (.partFailed (j + 1) (totalPartsOf buffer.length))⟩ := by
  rw [uploadLargeFileBody_def, hrp]
  rfl

/-- C5: the number of parts equals the ceiling of size over the fixed
512 KiB part size (20 parts for a 10,000,000-byte file), the j-th call of
the strictly sequential loop uploads part j, and that part is exactly the
bytes from j*partSize to min((j+1)*partSize, size). -/
theorem chunk_math (buffer : Bytes) (fileId publicUrl : String)
    (commitDocument : Option String) (j : Nat)
    (hj : j < totalPartsOf buffer.length) :
    totalPartsOf 10000000 = 20 ∧
    buffer.length ≤ totalPartsOf buffer.length * partSize ∧
    totalPartsOf buffer.length * partSize < buffer.length + partSize ∧
    (uploadLargeFile true fileId publicUrl buffer (fun _ => true)
      commitDocument).partCalls.length = totalPartsOf buffer.length ∧
    (uploadLargeFile true fileId publicUrl buffer (fun _ => true)
      commitDocument).partCalls.getD j (0, []) =
      (j, slice buffer (j * partSize) (min (j * partSize + partSize) buffer.length)) := by
  rcases hrp : runParts buffer buffer.length (fun _ => true) 0
    (totalPartsOf buffer.length) with ⟨calls, o⟩
  have ho : o = none := by
    have h0 := runParts_ok_none buffer buffer.length (totalPartsOf buffer.length) 0
    rw [hrp] at h0
    exact h0
  subst ho
  have hlen : calls.length = totalPartsOf buffer.length := by
    have h0 := runParts_ok_length buffer buffer.length (totalPartsOf buffer.length) 0
    rw [hrp] at h0
    exact h0
  have hpc : (uploadLargeFile true fileId publicUrl buffer (fun _ => true)
      commitDocument).partCalls = calls := by
    rw [uploadLargeFile_true]
    exact uploadLargeFileBody_ok fileId publicUrl buffer commitDocument calls hrp
  refine ⟨by decide, ?_, ?_, ?_, ?_⟩
  · simp only [totalPartsOf, partSize]; omega
  · simp only [totalPartsOf, partSize]; omega
  · rw [hpc]; exact hlen
  · rw [hpc]
    have hg := runParts_ok_getD buffer buffer.length (totalPartsOf buffer.length) 0 j hj
    rw [hrp] at hg
    simpa using hg

/-- Witness for C5: a 100-byte buffer has one part, the 10,000,000-byte
count is 20, and call 0 carries slice 0. -/
theorem chunk_math_witness :
    0 < totalPartsOf (List.replicate 100 (7 : Nat)).length ∧
    totalPartsOf 10000000 = 20 ∧
    (uploadLargeFile true "fid" "http://x" (List.replicate 100 7) (fun _ => true)
      (some "doc")).partCalls.getD 0 (0, []) =
      (0, slice (List.replicate 100 7) (0 * partSize)
        (min (0 * partSize + partSize) (List.replicate 100 (7 : Nat)).length)) :=
  ⟨by decide,
    (chunk_math (List.replicate 100 7) "fid" "http://x" (some "doc") 0 (by decide)).1,
    (chunk_math (List.replicate 100 7) "fid" "http://x" (some "doc") 0 (by decide)).2.2.2.2⟩

/-- C6: when the first failing part index is j, the upload aborts with the
part-failure error carrying that part (reported 1-based with the total),
the parts attempted are exactly 0..j, no commit call is issued and no
database record is created. -/
theorem part_failure_atomicity (buffer : Bytes) (fileId publicUrl : String)
    (partOk : Nat → Bool) (commitDocument : Option String) (j : Nat)
    (hjlt : j < totalPartsOf buffer.length)
    (hfail : partOk j = false)
    (hmin : ∀ k, k < j → partOk k = true) :
    (uploadLargeFile true fileId publicUrl buffer partOk commitDocument).result =
      .error (.partFailed (j + 1) (totalPartsOf buffer.length)) ∧
    (uploadLargeFile true fileId publicUrl buffer partOk commitDocument).commitCalled =
      false ∧
    (uploadLargeFile true fileId publicUrl buffer partOk commitDocument).dbCreated =
      false ∧
    (uploadLargeFile true fileId publicUrl buffer partOk commitDocument).partCalls.map
      Prod.fst = List.range (j + 1) := by
  rcases hrp : runParts buffer buffer.length partOk 0
    (totalPartsOf buffer.length) with ⟨calls, o⟩
  have h := runParts_fail_spec buffer buffer.length partOk (totalPartsOf buffer.length)
    0 j hjlt (by simpa using hfail) (fun k hk => by simpa using hmin k hk)
  rw [hrp] at h
  have ho : o = some j := by
    have h1 := h.1
    simpa using h1
  subst ho
  have h1 : calls.map Prod.fst = List.range (j + 1) := by
    have h2 := h.2
    simpa using h2
  have hbody := uploadLargeFileBody_fail fileId publicUrl buffer partOk
    commitDocument calls j hrp
  refine ⟨?_, ?_, ?_, ?_⟩
  all_goals rw [uploadLargeFile_true, hbody]
  all_goals first
    | rfl
    | exact h1

/-- Witness for C6: a one-part buffer whose only part-upload call fails. -/
theorem part_failure_atomicity_witness :
    (uploadLargeFile true "fid" "http://x" (List.replicate 100 (7 : Nat))
      (fun _ => false) (some "doc")).result = .error (.partFailed 1 1) ∧
    (uploadLargeFile true "fid" "http://x" (List.replicate 100 (7 : Nat))
      (fun _ => false) (some "doc")).commitCalled = false ∧
    (uploadLargeFile true "fid" "http://x" (List.replicate 100 (7 : Nat))
      (fun _ => false) (some "doc")).dbCreated = false ∧
    (uploadLargeFile true "fid" "http://x" (List.replicate 100 (7 : Nat))
      (fun _ => false) (some "doc")).partCalls.map Prod.fst = List.range 1 :=
  ⟨(part_failure_atomicity (List.replicate 100 7) "fid" "http://x" (fun _ => false)
      (some "doc") 0 (by decide) (by decide) (fun k hk => absurd hk (by omega))).1,
    (part_failure_atomicity (List.replicate 100 7) "fid" "http://x" (fun _ => false)
      (some "doc") 0 (by decide) (by decide) (fun k hk => absurd hk (by omega))).2.1,
    (part_failure_atomicity (List.replicate 100 7) "fid" "http://x" (fun _ => false)
      (some "doc") 0 (by decide) (by decide) (fun k hk => absurd hk (by omega))).2.2.1,
    (part_failure_atomicity (List.replicate 100 7) "fid" "http://x" (fun _ => false)
      (some "doc") 0 (by decide) (by decide) (fun k hk => absurd hk (by omega))).2.2.2⟩

/-- C9: a SESSION_PASSWORD_NEEDED answer to the verify-code call fails
with the distinct two-factor error after exactly one backend call, and
leaves the auth state unchanged — in particular not authorized. -/
theorem twoFactor_terminal (st : AuthStatus) (initialized : Bool) (hash : String)
    (hhash : st.phoneCodeHash = some hash) :
    (signIn st initialized (.fail "SESSION_PASSWORD_NEEDED")).result =
      .error .twoFactorUnsupported ∧
    (signIn st initialized (.fail "SESSION_PASSWORD_NEEDED")).status = st ∧
    (signIn st initialized (.fail "SESSION_PASSWORD_NEEDED")).status.authorized =
      st.authorized ∧
    (signIn st initialized (.fail "SESSION_PASSWORD_NEEDED")).backendCalls = 1 ∧
    (∀ m, SignInError.twoFactorUnsupported ≠ SignInError.backendError m) ∧
    SignInError.twoFactorUnsupported ≠ SignInError.noPhoneCodeHash := by
  refine ⟨?_, ?_, ?_, ?_, ?_, ?_⟩ <;> simp [signIn, hhash]

/-- Witness for C9 at a concrete pending-code state. -/
theorem twoFactor_terminal_witness :
    (signIn (AuthStatus.mk false none (some "hash") true (some "p")) false
      (.fail "SESSION_PASSWORD_NEEDED")).result = .error .twoFactorUnsupported ∧
    (signIn (AuthStatus.mk false none (some "hash") true (some "p")) false
      (.fail "SESSION_PASSWORD_NEEDED")).status =
      AuthStatus.mk false none (some "hash") true (some "p") ∧
    (signIn (AuthStatus.mk false none (some "hash") true (some "p")) false
      (.fail "SESSION_PASSWORD_NEEDED")).backendCalls = 1 :=
  ⟨(twoFactor_terminal (AuthStatus.mk false none (some "hash") true (some "p"))
      false "hash" rfl).1,
    (twoFactor_terminal (AuthStatus.mk false none (some "hash") true (some "p"))
      false "hash" rfl).2.1,
    (twoFactor_terminal (AuthStatus.mk false none (some "hash") true (some "p"))
      false "hash" rfl).2.2.2.1⟩

/-- C10: the plain download entry point resolves the record by primary key
first, falls back to the first record whose public URL contains the id as
a substring, and answers 404 exactly when both lookups find nothing. -/
theorem plain_download_lookup (db : List FileRecord) (botToken : String)
    (backend : String → BackendFileResult) (id : String) (hid : id ≠ "") :
    (∀ f, findUniqueById db id = some f → lookupFile db id = some f) ∧
    (findUniqueById db id = none →
      lookupFile db id = findFirstByPublicUrl db id) ∧
    (streamFile db botToken backend id = .notFound "File not found" ↔
      lookupFile db id = none) := by
  refine ⟨?_, ?_, ?_⟩
  · intro f hf; simp [lookupFile, hf]
  · intro hf; simp [lookupFile, hf]
  · cases hfl : lookupFile db id with
    | none => simp [streamFile, hid, hfl]
    | some f =>
      constructor
      · intro heq
        exfalso
        by_cases h1 : MAX_BOT_DOWNLOAD_SIZE < f.fileSize <;>
          by_cases h2 : botToken = "" <;>
          cases hb : backend f.telegramFileId <;>
          simp [streamFile, hid, hfl, h1, h2, hb] at heq
      · intro hnone
        simp at hnone

/-- Witness for C10: a record found only through the UUID embedded in its
public URL, with a primary key different from the requested id. -/
theorem plain_download_lookup_witness :
    lookupFile [recUrl42] "uuid-42" = findFirstByPublicUrl [recUrl42] "uuid-42" ∧
    findFirstByPublicUrl [recUrl42] "uuid-42" = some recUrl42 ∧
    (streamFile [recUrl42] "token" (fun _ => BackendFileResult.ok "p") "uuid-42" =
      .notFound "File not found" ↔ lookupFile [recUrl42] "uuid-42" = none) :=
  ⟨(plain_download_lookup [recUrl42] "token" (fun _ => BackendFileResult.ok "p")
      "uuid-42" (by decide)).2.1 (by decide),
    by decide,
    (plain_download_lookup [recUrl42] "token" (fun _ => BackendFileResult.ok "p")
      "uuid-42" (by decide)).2.2⟩

end Uploader
